import Mathlib

/-!
Shallow embedding of the core of the FriendConnect coordinator
(repository eris-ops/Friendconnect), translated from the JavaScript
sources under review: `health-monitor.js`, `session-manager.js`,
`friend-manager.js`, `auth-manager.js`, `xbox-auth-recovery.js` and
`xsts-token-handler.js`.

Conventions of the embedding:
* JavaScript numbers that only ever hold non-negative integers
  (failure counters, attempt counters, millisecond delays, epoch
  timestamps) are modelled as `Nat`; the one fractional computation
  (the friendship health percentage) is modelled over `Rat` (JS uses
  IEEE doubles; the two agree on every realistically sized input and
  no claim depends on rounding at astronomic sizes).
* Network requests are modelled by an environment `net : Nat → Bool`
  giving the success of the i-th HTTP call, with the call counter
  threaded through the state.
* `async` control flow is sequentialised: an `async` function either
  resolves (`Except.ok`) or rejects (`Except.error`), and events
  emitted on the `EventEmitter` are collected in an ordered list.
* Recursive reconnection (`attemptReconnect` ↔ `createSession`) is
  embedded with an explicit fuel argument; every theorem below either
  holds for all fuel values or takes enough fuel to run the scenario.
-/

/-! ## HealthMonitor (`health-monitor.js`) -/

/-- Monitoring configuration; only `maxFailures` (default 3) is relevant
to the claims.  From the constructor of `HealthMonitor`
(`health-monitor.js` lines 7-27). -/
structure HMConfig where
  maxFailures : Nat
deriving Repr, DecidableEq

/-- `processHealthResult` (`health-monitor.js` lines 122-140): on a
healthy probe the per-subject failure counter is reset to 0; on an
unhealthy probe it is incremented and `serverDown` is emitted when the
new count reaches (`>=`) `maxFailures`.  The `failures` Map is modelled
as a total function with the JS `get(id) || 0` default built in.  The
returned Bool records whether a `serverDown(id)` event was emitted. -/
def processHealthResult (cfg : HMConfig) (failures : String → Nat)
    (serverId : String) (healthy : Bool) : (String → Nat) × Bool :=
  if healthy then
    (Function.update failures serverId 0, false)
  else
    let newFailures := failures serverId + 1
    (Function.update failures serverId newFailures,
     decide (cfg.maxFailures ≤ newFailures))

/-- A run of consecutive probe results for one subject, as delivered by
`performHealthChecks`/`checkServer`; returns the final failure map and
the number of `serverDown(id)` events emitted during the run. -/
def runProbes (cfg : HMConfig) (id : String) :
    (String → Nat) → List Bool → (String → Nat) × Nat
  | f, [] => (f, 0)
  | f, p :: ps =>
    let r := processHealthResult cfg f id p
    let rest := runProbes cfg id r.1 ps
    (rest.1, (if r.2 then 1 else 0) + rest.2)

/-- Number of `serverDown(id)` events emitted over a probe sequence
starting from the all-zero counters installed by `startMonitoring`
(`health-monitor.js` lines 37-41). -/
def serverDownCount (cfg : HMConfig) (id : String) (probes : List Bool) : Nat :=
  (runProbes cfg id (fun _ => 0) probes).2

/-! ## SessionController (`session-manager.js`) -/

/-- The session tuning block `sessionConfig` read by `SessionManager`
(`session-manager.js` lines 62, 232, 292, 308). -/
structure SessionConfig where
  autoReconnect : Bool
  maxReconnectAttempts : Nat
  reconnectDelay : Nat
  heartbeatInterval : Nat
deriving Repr, DecidableEq

/-- The mutable fields of `SessionManager` relevant to the claims
(`session-manager.js` lines 25-30): `reconnectAttempts`, `isRunning`,
whether the heartbeat `setInterval` timer is installed
(`heartbeatInterval !== null`), whether `sessionInstance !== null`, and
`lastHeartbeat`. -/
structure SMState where
  reconnectAttempts : Nat
  isRunning : Bool
  heartbeatActive : Bool
  hasSession : Bool
  lastHeartbeat : Option Nat
deriving Repr, DecidableEq

/-- Events emitted by `SessionManager` (`this.emit(...)` sites). The
`reconnectAttempt` event carries the attempt number, the configured
maximum and the backoff delay, exactly as in `session-manager.js`
lines 295-299. -/
inductive SMEvent where
  | sessionCreated
  | sessionHeartbeat
  | sessionRecovered
  | reconnectAttempt (attempt maxAttempts delay : Nat)
  | errorEvent (msg : String)
  | stopped
deriving Repr, DecidableEq

/-- `stop()` (`session-manager.js` lines 343-378): sets
`isRunning = false`, clears the heartbeat interval, best-effort DELETEs
the session (elided: its failure only logs a warning), then nulls
`sessionInstance`, zeroes `reconnectAttempts`, nulls `lastHeartbeat` and
emits `stopped`.  Note that nothing here cancels a reconnect retry that
is sleeping in `attemptReconnect`. -/
def stopFn (_st : SMState) : SMState × List SMEvent :=
  (⟨0, false, false, false, none⟩, [SMEvent.stopped])

/-- One firing of the heartbeat timer callback installed by
`startHeartbeat` (`session-manager.js` lines 227-244) running
`performHeartbeat` (lines 246-288): the body early-returns when there is
no session or the manager is not running; on a successful PUT it updates
`lastHeartbeat` and emits `sessionHeartbeat`; on a failed PUT the
interval callback catches the rejection, logs it and emits only an
`error` event — it does not call `attemptReconnect`. -/
def heartbeatTick (st : SMState) (now : Nat) (ok : Bool) :
    SMState × List SMEvent :=
  if !st.hasSession || !st.isRunning then (st, [])
  else if ok then
    (⟨st.reconnectAttempts, st.isRunning, st.heartbeatActive, st.hasSession, some now⟩,
     [SMEvent.sessionHeartbeat])
  else (st, [SMEvent.errorEvent "Heartbeat error"])

/-- Result of a `createSession()` call: final state, final network-call
counter, emitted events, and the promise outcome — `Except.ok true`
when it resolved with a session record, `Except.ok false` when it
resolved with `undefined` (the reconnect-handling path), `Except.error`
when it threw. -/
structure CSOut where
  st : SMState
  n : Nat
  events : List SMEvent
  result : Except String Bool

/-- Result of `attemptReconnect()` / of its post-sleep continuation
(these always resolve). -/
structure AROut where
  st : SMState
  n : Nat
  events : List SMEvent

mutual

/-- `createSession()` (`session-manager.js` lines 34-69): if running,
first `stop()`; then `createXboxLiveSession` issues one PUT (call
number `n`, success given by `net n`; a non-ok response throws).  On
success it emits `sessionCreated`, joins the other accounts (their
individual failures are caught and only logged, lines 165-176), starts
the heartbeat, sets `isRunning = true` and resets `reconnectAttempts`.
On failure the catch block calls `attemptReconnect()` — after which the
function resolves with `undefined` — when `autoReconnect` is set and
`reconnectAttempts < maxReconnectAttempts`; otherwise it emits `error`
and rethrows. -/
def createSession (cfg : SessionConfig) (net : Nat → Bool) :
    Nat → SMState → Nat → CSOut
  | 0, st, n => ⟨st, n, [], Except.error "fuel exhausted"⟩
  | fuel + 1, st, n =>
    let s1 := if st.isRunning then (stopFn st).1 else st
    let ev1 := if st.isRunning then (stopFn st).2 else []
    if net n then
      ⟨⟨0, true, true, true, s1.lastHeartbeat⟩, n + 1,
       ev1 ++ [SMEvent.sessionCreated], Except.ok true⟩
    else
      if cfg.autoReconnect ∧ s1.reconnectAttempts < cfg.maxReconnectAttempts then
        let r := attemptReconnect cfg net fuel s1 (n + 1)
        ⟨r.st, r.n, ev1 ++ r.events, Except.ok false⟩
      else
        ⟨s1, n + 1, ev1 ++ [SMEvent.errorEvent "Session creation failed"],
         Except.error "Session creation failed"⟩

/-- `attemptReconnect()` (`session-manager.js` lines 290-315): increment
`reconnectAttempts`, compute the exponential backoff delay
`reconnectDelay * 2 ^ (reconnectAttempts - 1)`, emit `reconnectAttempt`,
sleep for that delay (the un-cancellable `await this.delay(delay)`),
then run the post-sleep continuation `reconnectResume`. -/
def attemptReconnect (cfg : SessionConfig) (net : Nat → Bool) :
    Nat → SMState → Nat → AROut
  | 0, st, n => ⟨st, n, []⟩
  | fuel + 1, st, n =>
    let st1 : SMState :=
      ⟨st.reconnectAttempts + 1, st.isRunning, st.heartbeatActive,
       st.hasSession, st.lastHeartbeat⟩
    let d := cfg.reconnectDelay * 2 ^ (st1.reconnectAttempts - 1)
    let r := reconnectResume cfg net fuel st1 n
    ⟨r.st, r.n,
     SMEvent.reconnectAttempt st1.reconnectAttempts cfg.maxReconnectAttempts d
       :: r.events⟩

/-- The part of `attemptReconnect()` after `await this.delay(delay)`
returns (`session-manager.js` lines 303-314): try `createSession()`
again; if it resolves, emit `sessionRecovered`; if it throws, recurse
while `reconnectAttempts < maxReconnectAttempts`, else emit
`error("Max reconnect attempts exceeded")`.  This is exactly the
continuation that a retry sleeping at the time of a `stop()` call will
still run, since the sleep is a plain `setTimeout` promise. -/
def reconnectResume (cfg : SessionConfig) (net : Nat → Bool) :
    Nat → SMState → Nat → AROut
  | 0, st, n => ⟨st, n, []⟩
  | fuel + 1, st, n =>
    let c := createSession cfg net fuel st n
    match c.result with
    | Except.ok _ => ⟨c.st, c.n, c.events ++ [SMEvent.sessionRecovered]⟩
    | Except.error _ =>
      if c.st.reconnectAttempts < cfg.maxReconnectAttempts then
        let r := attemptReconnect cfg net fuel c.st c.n
        ⟨r.st, r.n, c.events ++ r.events⟩
      else
        ⟨c.st, c.n, c.events ++ [SMEvent.errorEvent "Max reconnect attempts exceeded"]⟩

end

/-- Whether an event is a `reconnectAttempt` emission. -/
def isRA : SMEvent → Bool
  | SMEvent.reconnectAttempt _ _ _ => true
  | _ => false

/-- Number of `reconnectAttempt` events in a list, i.e. the number of
times `attemptReconnect` ran. -/
def countRA (evs : List SMEvent) : Nat := (evs.filter isRA).length

/-- Whether a `createSession` promise outcome is a rejection. -/
def isErr : Except String Bool → Bool
  | Except.error _ => true
  | Except.ok _ => false

/-! ## FriendGraph (`friend-manager.js`) -/

/-- One entry of the `friendships` Map (`friend-manager.js`
lines 92-97 and 105-110). -/
structure Friendship where
  fromEmail : String
  toEmail : String
  established : Bool
  timestamp : Nat
deriving Repr, DecidableEq

/-- The `established` component of `getFriendshipStats`
(`friend-manager.js` lines 249-259): the number of recorded friendships
whose `established` flag is set. -/
def establishedCount (friendships : List Friendship) : Nat :=
  (friendships.filter (fun f => f.established)).length

/-- The `healthy` verdict of `getHealthStatus` (`friend-manager.js`
lines 261-284): `expected = accounts.length * (accounts.length - 1)`;
`healthPercentage = expected > 0 ? established / expected * 100 : 100`;
unhealthy iff `healthPercentage < 50`. -/
def friendHealthOk (accounts : List String) (friendships : List Friendship) : Bool :=
  let expected := accounts.length * (accounts.length - 1)
  let pct : Rat :=
    if 0 < expected then
      ((establishedCount friendships : Rat) / (expected : Rat)) * 100
    else 100
  decide (¬ pct < 50)

/-! ## AuthPipeline (`auth-manager.js`, `xbox-auth-recovery.js`) -/

/-- The Xbox token object returned by `authflow.getXboxToken()`
(prismarine-auth is external to the repository, so the token value is
unconstrained input here).  `NotAfter` is kept as the epoch-millisecond
value of `new Date(token.NotAfter).getTime()`. -/
structure XboxToken where
  userXUID : String
  userHash : String
  XSTSToken : String
  NotAfter : Option Nat
deriving Repr, DecidableEq

/-- The account handle ("Identity") assembled by
`tryAuthenticationMethod` (`auth-manager.js` lines 151-175) and by
`tryAuthenticationStrategy` (`xbox-auth-recovery.js` lines 116-137);
both build exactly these fields. -/
structure AuthClient where
  email : String
  xuid : String
  userHash : String
  xstsToken : String
  authHeader : String
  authenticatedAt : Nat
  expiresAt : Nat
deriving Repr, DecidableEq

/-- The client construction of `tryAuthenticationMethod`
(`auth-manager.js` lines 154-164): no validation of any kind is applied
to the token fields; `expiresAt` is `NotAfter` when present, otherwise
`now + 24h`.  There is no comparison of `NotAfter` against `now`. -/
def mkClientFromToken (email : String) (t : XboxToken) (now : Nat) : AuthClient :=
  ⟨email, t.userXUID, t.userHash, t.XSTSToken,
   "XBL3.0 x=" ++ t.userHash ++ ";" ++ t.XSTSToken,
   now,
   match t.NotAfter with
   | some ms => ms
   | none => now + 24 * 60 * 60 * 1000⟩

/-- The token validation of `getXboxTokenWithAdvancedRetry`
(`xbox-auth-recovery.js` lines 154-160): all three strings non-empty
(JS truthiness) and `userXUID.length ≥ 10`, `userHash.length ≥ 10`,
`XSTSToken.length ≥ 100`. -/
def tokenStructureOk (t : XboxToken) : Bool :=
  (!t.userXUID.isEmpty && !t.userHash.isEmpty && !t.XSTSToken.isEmpty) &&
  (decide (10 ≤ t.userXUID.length) && decide (10 ≤ t.userHash.length) &&
   decide (100 ≤ t.XSTSToken.length))

/-- A character matched by the regex metacharacter `.` (anything but a
line terminator). -/
def dotChar (c : Char) : Bool := c ≠ '\n' && c ≠ '\r'

/-- Drop an expected literal character sequence; `none` when the input
does not start with it. -/
def dropLit : List Char → List Char → Option (List Char)
  | [], cs => some cs
  | _ :: _, [] => none
  | l :: ls, c :: cs => if c = l then dropLit ls cs else none

/-- Matcher for the part `;.+$` of the authorization-header regex once
one or more non-`;` characters have been consumed: scan the remaining
non-`;` characters, and at the first `;` require a non-empty tail of
`.`-matchable characters. -/
def semiTail : List Char → Bool
  | [] => false
  | c :: cs => if c = ';' then !cs.isEmpty && cs.all dotChar else semiTail cs

/-- Executable form of the spec's authorization-header regex
`^XBL3\.0 x=[^;]+;.+$`: the literal prefix, then at least one non-`;`
character, a `;`, and a non-empty remainder of `.`-matchable
characters (the `[^;]+` block necessarily ends at the first `;`). -/
def matchesAuthHeaderRegex (s : String) : Bool :=
  match dropLit "XBL3.0 x=".data s.data with
  | some rest =>
    match rest with
    | [] => false
    | c :: cs => if c = ';' then false else semiTail cs
  | none => false

/-! ### Scheduling of `initializeAccounts` (`auth-manager.js` lines 39-73) -/

/-- Start / completion of one identity's `authenticateAccount` call. -/
inductive AuthEvent where
  | start (email : String)
  | complete (email : String)
deriving Repr, DecidableEq

/-- Event trace of `initializeAccounts` (`auth-manager.js` lines 39-73):
`this.accounts.map(email => this.authenticateAccount(email))` calls each
async `authenticateAccount` during the synchronous `map`, and each such
call runs synchronously up to its first suspension — through
`tryAuthenticationMethod`'s `new Promise` executor, which constructs the
`Authflow` and thereby starts that identity's device-code flow — before
`map` returns.  Only then does `Promise.allSettled(authPromises)` await
the completions, which are delivered in later microtasks in some order
`completions`.  Hence the trace is: all starts in configuration order,
then the completions. -/
def authInitTrace (accounts completions : List String) : List AuthEvent :=
  accounts.map AuthEvent.start ++ completions.map AuthEvent.complete

/-- Sequential-authentication property claimed by the spec for two
identities `a` before `b`: every completion of `a` precedes every start
of `b` in the trace. -/
def seqAuthOK (tr : List AuthEvent) (a b : String) : Prop :=
  ∀ i j, tr.get? i = some (AuthEvent.complete a) →
    tr.get? j = some (AuthEvent.start b) → i < j

/-! ## TokenStore invalidation (`xbox-auth-recovery.js` lines 751-796) -/

/-- Replace the first occurrence of character `p` by `r`, modelling the
JS `String.replace` with a one-character string pattern. -/
def replaceFirstCharAux (p r : Char) : List Char → List Char
  | [] => []
  | c :: cs => if c = p then r :: cs else c :: replaceFirstCharAux p r cs

/-- `email.replace('@', '_').replace('.', '_')` — each `replace` with a
string pattern rewrites only the first occurrence. -/
def mangleEmail (email : String) : String :=
  String.mk (replaceFirstCharAux '.' '_' (replaceFirstCharAux '@' '_' email.data))

/-- The literal glob-looking strings of the `cachePatterns` array; they
are passed to `fs.existsSync`/`fs.unlinkSync`, which treat them as plain
file names (no glob expansion). -/
def cacheGlobLits : List String :=
  ["*-cache.json", "*-mca-cache.json", "*-msal-cache.json",
   "*-xbl-cache.json", "*-live-cache.json"]

/-- The full `cachePatterns` array of `clearAuthenticationCache`
(`xbox-auth-recovery.js` lines 752-761). -/
def cachePatterns (email : String) : List String :=
  [email, mangleEmail email] ++ cacheGlobLits

/-- `file.endsWith(suffix)` over the character lists (Lean's own
`String.endsWith` is used nowhere so that every definition stays
kernel-computable). -/
def strEndsWith (s suffix : String) : Bool := suffix.data.isSuffixOf s.data

/-- `clearAuthenticationCache(email)` (`xbox-auth-recovery.js`
lines 751-796) over a token directory modelled as the list of its file
names: first each pattern that exists as a literal file name is
unlinked (missing files are skipped, and unlink errors are swallowed);
then every file whose name ends in `-cache.json` is unlinked,
irrespective of the identity it belongs to. -/
def clearAuthenticationCache (email : String) (files : List String) : List String :=
  let files1 := (cachePatterns email).foldl
    (fun fs p => fs.filter (fun f => f != p)) files
  files1.filter (fun f => !strEndsWith f "-cache.json")

/-! ## Hardened XSTS response parsing (`xsts-token-handler.js`) -/

/-- The opening-brace character (written via its code point throughout). -/
def lbrace : Char := '\x7b'

/-- The closing-brace character. -/
def rbrace : Char := '\x7d'

/-- JSON values as produced by `JSON.parse`.  Numeric values keep their
source lexeme: no claim under verification depends on numeric decoding,
only on parse success/failure and on string/object fields. -/
inductive Json where
  | null
  | bool (b : Bool)
  | num (lexeme : String)
  | str (s : String)
  | arr (elems : List Json)
  | obj (members : List (String × Json))

/-- JSON insignificant whitespace (the only four characters
`JSON.parse` skips). -/
def jsonWs (c : Char) : Bool := c = ' ' || c = '\t' || c = '\n' || c = '\r'

/-- Skip JSON whitespace. -/
def skipWs (cs : List Char) : List Char := cs.dropWhile jsonWs

/-- Hexadecimal digit value. -/
def hexVal (c : Char) : Option Nat :=
  if '0' ≤ c ∧ c ≤ '9' then some (c.toNat - '0'.toNat)
  else if 'a' ≤ c ∧ c ≤ 'f' then some (c.toNat - 'a'.toNat + 10)
  else if 'A' ≤ c ∧ c ≤ 'F' then some (c.toNat - 'A'.toNat + 10)
  else none

/-- Single-character JSON string escapes. -/
def escMap (c : Char) : Option Char :=
  if c = '"' then some '"'
  else if c = '\\' then some '\\'
  else if c = '/' then some '/'
  else if c = 'b' then some '\x08'
  else if c = 'f' then some '\x0c'
  else if c = 'n' then some '\n'
  else if c = 'r' then some '\r'
  else if c = 't' then some '\t'
  else none

/-- Body of a JSON string after the opening quote: the decoded
characters and the remainder after the closing quote.  Control
characters below 0x20 are rejected, as in `JSON.parse`; `\uXXXX`
escapes decode their code point (surrogate pairing is not modelled —
no input under verification contains `\u` escapes). -/
def parseStrAux : List Char → Option (List Char × List Char)
  | [] => none
  | '"' :: rest => some ([], rest)
  | '\\' :: 'u' :: a :: b :: c :: d :: rest =>
    match hexVal a, hexVal b, hexVal c, hexVal d with
    | some va, some vb, some vc, some vd =>
      (parseStrAux rest).map
        (fun r => (Char.ofNat (((va * 16 + vb) * 16 + vc) * 16 + vd) :: r.1, r.2))
    | _, _, _, _ => none
  | '\\' :: e :: rest =>
    match escMap e with
    | some ch => (parseStrAux rest).map (fun r => (ch :: r.1, r.2))
    | none => none
  | c :: rest =>
    if c.toNat < 32 then none
    else (parseStrAux rest).map (fun r => (c :: r.1, r.2))

/-- Lexeme of a JSON number (integer part with no leading zero,
optional fraction, optional exponent), returned together with the
remaining input. -/
def parseNumLex (cs : List Char) : Option (String × List Char) :=
  let (sign, cs1) :=
    match cs with
    | '-' :: r => (['-'], r)
    | _ => (([] : List Char), cs)
  match cs1 with
  | [] => none
  | c :: r =>
    if c = '0' ∨ ¬ c.isDigit then
      if c = '0' then
        let (frac, r2) := numTail r
        some (String.mk (sign ++ ['0'] ++ frac), r2)
      else none
    else
      let ds := r.takeWhile Char.isDigit
      let r1 := r.dropWhile Char.isDigit
      let (frac, r2) := numTail r1
      some (String.mk (sign ++ (c :: ds) ++ frac), r2)
where
  /-- Optional `.digits` then optional `e[+-]digits`. -/
  numTail (cs : List Char) : List Char × List Char :=
    let (fr, csA) :=
      match cs with
      | '.' :: r =>
        match r.takeWhile Char.isDigit with
        | [] => (([] : List Char), cs)
        | ds => ('.' :: ds, r.dropWhile Char.isDigit)
      | _ => (([] : List Char), cs)
    let (ex, csB) :=
      match csA with
      | e :: r =>
        if e = 'e' ∨ e = 'E' then
          let (sg, r1) :=
            match r with
            | '+' :: r2 => (['+'], r2)
            | '-' :: r2 => (['-'], r2)
            | _ => (([] : List Char), r)
          match r1.takeWhile Char.isDigit with
          | [] => (([] : List Char), csA)
          | ds => (e :: (sg ++ ds), r1.dropWhile Char.isDigit)
        else (([] : List Char), csA)
      | [] => (([] : List Char), csA)
    (fr ++ ex, csB)

mutual

/-- Recursive-descent JSON value parser with fuel, mirroring
`JSON.parse`'s grammar; `none` is a parse failure (a thrown
`SyntaxError`, e.g. "Unexpected end of JSON input" on truncation). -/
def parseValue : Nat → List Char → Option (Json × List Char)
  | 0, _ => none
  | fuel + 1, cs =>
    match skipWs cs with
    | [] => none
    | c :: rest =>
      if c = lbrace then parseObjRest fuel rest
      else if c = '[' then parseArrRest fuel rest
      else if c = '"' then
        (parseStrAux rest).map (fun r => (Json.str (String.mk r.1), r.2))
      else if c = 't' then
        (dropLit "rue".data rest).map (fun r => (Json.bool true, r))
      else if c = 'f' then
        (dropLit "alse".data rest).map (fun r => (Json.bool false, r))
      else if c = 'n' then
        (dropLit "ull".data rest).map (fun r => (Json.null, r))
      else
        (parseNumLex (c :: rest)).map (fun r => (Json.num r.1, r.2))

/-- Object body after the opening brace. -/
def parseObjRest : Nat → List Char → Option (Json × List Char)
  | 0, _ => none
  | fuel + 1, cs =>
    match skipWs cs with
    | [] => none
    | c :: rest =>
      if c = rbrace then some (Json.obj [], rest)
      else parseMembers fuel (c :: rest) []

/-- Comma-separated `"key": value` members, then the closing brace. -/
def parseMembers : Nat → List Char → List (String × Json) →
    Option (Json × List Char)
  | 0, _, _ => none
  | fuel + 1, cs, acc =>
    match skipWs cs with
    | '"' :: rest =>
      match parseStrAux rest with
      | some (key, r1) =>
        match skipWs r1 with
        | ':' :: r2 =>
          match parseValue fuel r2 with
          | some (v, r3) =>
            match skipWs r3 with
            | ',' :: r4 => parseMembers fuel r4 (acc ++ [(String.mk key, v)])
            | c :: r4 =>
              if c = rbrace then some (Json.obj (acc ++ [(String.mk key, v)]), r4)
              else none
            | [] => none
          | none => none
        | _ => none
      | none => none
    | _ => none

/-- Array body after the opening bracket. -/
def parseArrRest : Nat → List Char → Option (Json × List Char)
  | 0, _ => none
  | fuel + 1, cs =>
    match skipWs cs with
    | [] => none
    | c :: rest =>
      if c = ']' then some (Json.arr [], rest)
      else parseElems fuel (c :: rest) []

/-- Comma-separated array elements, then the closing bracket. -/
def parseElems : Nat → List Char → List Json → Option (Json × List Char)
  | 0, _, _ => none
  | fuel + 1, cs, acc =>
    match parseValue fuel cs with
    | some (v, r) =>
      match skipWs r with
      | ',' :: r2 => parseElems fuel r2 (acc ++ [v])
      | c :: r2 => if c = ']' then some (Json.arr (acc ++ [v]), r2) else none
      | [] => none
    | none => none

end

/-- `JSON.parse`: a single value spanning the whole input (up to
whitespace).  The fuel `4 * (length + 1)` dominates the recursion depth
of any input of this length. -/
def jsonParse (s : String) : Option Json :=
  match parseValue (4 * (s.length + 1)) s.data with
  | some (j, rest) => if (skipWs rest).isEmpty then some j else none
  | none => none

/-- JS property read `j[k]` on a parsed value: `none` models
`undefined` (also for non-objects).  Later duplicate keys win, as in a
JS object literal. -/
def getField (j : Json) (k : String) : Option Json :=
  match j with
  | Json.obj kvs => kvs.reverse.lookup k
  | _ => none

/-- Whether a number lexeme denotes zero (mantissa digits all `0`). -/
def numLexIsZero (lex : String) : Bool :=
  ((lex.data.takeWhile (fun c => c ≠ 'e' && c ≠ 'E')).filter Char.isDigit).all
    (fun c => c = '0')

/-- JS truthiness of a parsed JSON value. -/
def jsTruthy : Json → Bool
  | Json.null => false
  | Json.bool b => b
  | Json.str s => !s.isEmpty
  | Json.num lex => !numLexIsZero lex
  | Json.arr _ => true
  | Json.obj _ => true

/-- JS truthiness of a possibly-`undefined` value. -/
def jsTruthyOpt : Option Json → Bool
  | some j => jsTruthy j
  | none => false

/-- `a || b` on possibly-`undefined` JSON values. -/
def jsOr (a b : Option Json) : Option Json :=
  match a with
  | some v => if jsTruthy v then some v else b
  | none => b

/-- JS `\s` whitespace (the common members; the exotic Unicode spaces
do not occur in any modelled input). -/
def jsWsChar (c : Char) : Bool :=
  c = ' ' || c = '\t' || c = '\n' || c = '\r' || c = '\x0b' || c = '\x0c' ||
  c.toNat = 0xa0 || c.toNat = 0xfeff

/-- JS `String.trim`: drop leading and trailing whitespace (the
members of `\s`, which is what every modelled input can contain). -/
def trimWs (cs : List Char) : List Char :=
  ((cs.dropWhile jsWsChar).reverse.dropWhile jsWsChar).reverse

/-- Strip a leading U+FEFF byte-order mark
(`cleanData.replace(/^﻿/, '')`). -/
def stripBOM (cs : List Char) : List Char :=
  match cs with
  | c :: r => if c.toNat = 0xFEFF then r else cs
  | [] => []

/-- `String.lastIndexOf(c)`: index of the last occurrence. -/
def lastIdxOf (c : Char) (cs : List Char) : Option Nat :=
  (cs.enum.filter (fun p => p.2 = c)).getLast?.map (fun p => p.1)

/-- The literal `"Token":"` that the fallback regex
`/"Token":"([^"]+)"/` must find. -/
def tokenLit : List Char := "\"Token\":\"".data

/-- The literal `"DisplayClaims":` of the fallback regex
`/"DisplayClaims":(\x7b[^\x7d]*\x7d)/`. -/
def dcLit : List Char := "\"DisplayClaims\":".data

/-- Try the Token regex at the current position: the literal, then a
non-empty run of non-quote characters, then a closing quote; the
capture is that run. -/
def tokenCaptureAt (cs : List Char) : Option (List Char) :=
  match dropLit tokenLit cs with
  | some rest =>
    let cap := rest.takeWhile (fun c => c ≠ '"')
    match rest.dropWhile (fun c => c ≠ '"') with
    | '"' :: _ => if cap.isEmpty then none else some cap
    | _ => none
  | none => none

/-- Try the DisplayClaims regex at the current position: the literal,
then an opening brace, a run of non-`\x7d` characters and a closing
brace; the capture includes both braces. -/
def dcCaptureAt (cs : List Char) : Option (List Char) :=
  match dropLit dcLit cs with
  | some rest =>
    match rest with
    | c :: r2 =>
      if c = lbrace then
        let cap := r2.takeWhile (fun ch => ch ≠ rbrace)
        match r2.dropWhile (fun ch => ch ≠ rbrace) with
        | d :: _ => if d = rbrace then some (lbrace :: (cap ++ [rbrace])) else none
        | [] => none
      else none
    | [] => none
  | none => none

/-- Regex scan: try the positional matcher at every start position,
left to right, returning the first capture — the semantics of an
unanchored `String.match`. -/
def scanFor (f : List Char → Option (List Char)) : List Char → Option (List Char)
  | [] => f []
  | c :: cs =>
    match f (c :: cs) with
    | some r => some r
    | none => scanFor f cs

/-- Fueled worker for the `,\s*CLOSE → CLOSE` replace-all passes of
`attemptAlternativeParsing`'s "Method 2". -/
def replCommaCloseAux (close : Char) : Nat → List Char → List Char
  | 0, cs => cs
  | fuel + 1, cs =>
    match cs with
    | [] => []
    | c :: rest =>
      if c = ',' then
        match rest.dropWhile jsWsChar with
        | d :: ds =>
          if d = close then close :: replCommaCloseAux close fuel ds
          else c :: replCommaCloseAux close fuel rest
        | [] => c :: replCommaCloseAux close fuel rest
      else c :: replCommaCloseAux close fuel rest

/-- `.replace(/,\s*CLOSE/g, CLOSE)` for `CLOSE` a brace or bracket. -/
def replCommaClose (close : Char) (cs : List Char) : List Char :=
  replCommaCloseAux close cs.length cs

/-- `.replace(/\\"/g, '"')`. -/
def replEscQuote : List Char → List Char
  | '\\' :: '"' :: rest => '"' :: replEscQuote rest
  | c :: rest => c :: replEscQuote rest
  | [] => []

/-- Fueled worker for the `"\s*:\s*" → ":"` replace-all pass. -/
def replQuoteColonAux : Nat → List Char → List Char
  | 0, cs => cs
  | fuel + 1, cs =>
    match cs with
    | [] => []
    | c :: rest =>
      if c = '"' then
        match rest.dropWhile jsWsChar with
        | ':' :: r1 =>
          match r1.dropWhile jsWsChar with
          | '"' :: r2 => '"' :: ':' :: '"' :: replQuoteColonAux fuel r2
          | _ => c :: replQuoteColonAux fuel rest
        | _ => c :: replQuoteColonAux fuel rest
      else c :: replQuoteColonAux fuel rest

/-- `.replace(/"\s*:\s*"/g, '":"')`. -/
def replQuoteColon (cs : List Char) : List Char :=
  replQuoteColonAux cs.length cs

/-- "Method 2" of `attemptAlternativeParsing` (`xsts-token-handler.js`
lines 229-234): the four sequential regex-replace passes. -/
def fixCommonJsonIssues (s : String) : String :=
  String.mk (replQuoteColon (replEscQuote (replCommaClose ']' (replCommaClose rbrace s.data))))

/-- `attemptAlternativeParsing` (`xsts-token-handler.js`
lines 200-242): Method 1 regex-extracts `Token` and `DisplayClaims`;
when the captured DisplayClaims fragment fails to `JSON.parse`, a
minimal structure with `uhs = "temp_hash"` is synthesized.  `nowIso`
and `notAfterIso` stand for `new Date().toISOString()` and
`new Date(Date.now() + 24h).toISOString()`.  When Method 1 finds no
match, Method 2 re-parses the "fixed" text or throws. -/
def attemptAlternativeParsing (nowIso notAfterIso : String)
    (responseData : String) : Except String Json :=
  match scanFor tokenCaptureAt responseData.data,
        scanFor dcCaptureAt responseData.data with
  | some tok, some dcRaw =>
    let displayClaims :=
      match jsonParse (String.mk dcRaw) with
      | some j => j
      | none => Json.obj [("xui", Json.arr [Json.obj [("uhs", Json.str "temp_hash")]])]
    Except.ok (Json.obj
      [("Token", Json.str (String.mk tok)),
       ("DisplayClaims", displayClaims),
       ("IssueInstant", Json.str nowIso),
       ("NotAfter", Json.str notAfterIso)])
  | _, _ =>
    match jsonParse (fixCommonJsonIssues responseData) with
    | some j => Except.ok j
    | none => Except.error "Unable to parse XSTS response"

/-- `parseXSTSResponse` (`xsts-token-handler.js` lines 154-195): trim
and strip a BOM; when the body ends in neither a closing brace nor a
closing bracket, truncate at the last closing brace (when its index is
positive) and re-try; `JSON.parse` the result; require truthy `Token`
and `DisplayClaims` fields (a missing field throws into the same catch).
Any failure falls back to `attemptAlternativeParsing` applied to the
original, untruncated body. -/
def parseXSTSResponse (nowIso notAfterIso : String)
    (responseData : String) : Except String Json :=
  let clean0 := stripBOM (trimWs responseData.data)
  let clean1 :=
    if clean0.getLast? ≠ some rbrace ∧ clean0.getLast? ≠ some ']' then
      match lastIdxOf rbrace clean0 with
      | some i => if 0 < i then clean0.take (i + 1) else clean0
      | none => clean0
    else clean0
  match jsonParse (String.mk clean1) with
  | some parsed =>
    if !jsTruthyOpt (getField parsed "Token") then
      attemptAlternativeParsing nowIso notAfterIso responseData
    else if !jsTruthyOpt (getField parsed "DisplayClaims") then
      attemptAlternativeParsing nowIso notAfterIso responseData
    else Except.ok parsed
  | none => attemptAlternativeParsing nowIso notAfterIso responseData

/-- The first-attempt success test of `getXSTSTokenCustom`
(`xsts-token-handler.js` lines 49-59): parse the response and require
truthy `Token` and `DisplayClaims`; when this holds the attempt loop
returns on attempt 1 and no retry is counted. -/
def xstsFirstAttemptOk (nowIso notAfterIso body : String) : Bool :=
  match parseXSTSResponse nowIso notAfterIso body with
  | Except.ok d => jsTruthyOpt (getField d "Token") && jsTruthyOpt (getField d "DisplayClaims")
  | Except.error _ => false

/-- `extractUserInfo`'s user-hash computation (`xsts-token-handler.js`
lines 279-297): read `DisplayClaims.xui`, and when it is a non-empty
array take `xui[0].uhs || xui[0].xid`; otherwise the function returns
null (a missing `DisplayClaims` throws inside its try and also yields
null). -/
def extractUserInfoHash (tokenData : Json) : Option (Option Json) :=
  match getField tokenData "DisplayClaims" with
  | some dc =>
    match getField dc "xui" with
    | some (Json.arr (u :: _)) => some (jsOr (getField u "uhs") (getField u "xid"))
    | _ => none
  | none => none

/-- The wall-clock strings used by the fixture run (their values are
irrelevant to every claim). -/
def nowIsoW : String := "2025-07-18T18:24:01.000Z"

/-- The `NotAfter` synthesized for the fixture run (`now + 24h`). -/
def notAfterIsoW : String := "2025-07-19T18:24:01.000Z"

/-- A concrete XSTS token string of length 120 (≥ 100 characters), the
shape the spec's truncation scenario prescribes. -/
def xstsFixtureToken : String := "eyJ" ++ String.mk (List.replicate 117 'a')

/-- The truncated XSTS response body of spec scenario 2:
`\x7b"Token":"<token>","DisplayClaims":\x7b"xui":[\x7b"uhs":"h"\x7d]`
with the two closing braces missing — note that it ends in `]`. -/
def xstsFixtureBody : String :=
  "\x7b\"Token\":\"" ++ xstsFixtureToken ++
  "\",\"DisplayClaims\":\x7b\"xui\":[\x7b\"uhs\":\"h\"\x7d]"

/-- The parse of the fixture body through the hardened parser. -/
def fixtureParsed : Except String Json :=
  parseXSTSResponse nowIsoW notAfterIsoW xstsFixtureBody

/-- The user hash the rest of the pipeline extracts from the fixture's
parse result (`tryCustomXSTSRecovery` consumes it via
`extractUserInfo`, `xbox-auth-recovery.js` lines 281-292). -/
def fixtureUserHash : Option String :=
  match fixtureParsed with
  | Except.ok j =>
    match extractUserInfoHash j with
    | some (some (Json.str s)) => some s
    | _ => none
  | Except.error _ => none

/-!
## Theorems

The remainder of the file settles the claims against the embedding
above.  Concrete evaluations of the executable definitions need a
deeper elaborator recursion stack than the default.
-/

set_option maxRecDepth 400000

/-! ### HealthMonitor: claim C1 -/

/-- Counting `serverDown` emissions over a run of consecutive unhealthy
probes: starting from a counter value `f id`, the number of emissions
over `u` unhealthy probes is `u - (maxFailures - 1 - f id)` — one per
probe from the point the counter reaches `maxFailures` on. -/
theorem runProbes_false_count (cfg : HMConfig) (id : String) :
    ∀ (u : Nat) (f : String → Nat),
      (runProbes cfg id f (List.replicate u false)).2 =
        u - (cfg.maxFailures - 1 - f id) := by
  intro u
  induction u with
  | zero => intro f; simp [runProbes]
  | succ u ih =>
    intro f
    rw [List.replicate_succ]
    have hstep : processHealthResult cfg f id false =
        (Function.update f id (f id + 1), decide (cfg.maxFailures ≤ f id + 1)) := by
      simp [processHealthResult]
    simp only [runProbes, hstep, ih, Function.update_same]
    by_cases hc : cfg.maxFailures ≤ f id + 1
    · simp only [hc, decide_true_eq_true, decide_True, if_true]
      omega
    · simp only [hc, decide_False, decide_false_eq_false, Bool.false_eq_true, if_false]
      omega

/-- C1, amended.  With `0 < maxFailures`, for each monitored subject the
first `serverDown(id)` emission happens at exactly the
`maxFailures`-th consecutive unhealthy probe and never before — but,
because `processHealthResult` tests `newFailures >= maxFailures`, every
further consecutive unhealthy probe emits a **new** `serverDown(id)`
event (the count over `u` unhealthy probes is `u + 1 - maxFailures`,
not capped at one); the failure counter resets to zero on the first
subsequent healthy probe, which emits nothing. -/
theorem C1_serverDown_after_maxFailures (cfg : HMConfig)
    (h : 0 < cfg.maxFailures) (id : String) (u : Nat) :
    serverDownCount cfg id (List.replicate u false) = u + 1 - cfg.maxFailures ∧
    (∀ f : String → Nat,
      processHealthResult cfg f id true = (Function.update f id 0, false)) := by
  constructor
  · rw [serverDownCount, runProbes_false_count]
    omega
  · intro f
    simp [processHealthResult]

/-- Witness for `C1_serverDown_after_maxFailures` at `maxFailures = 3`,
four unhealthy probes. -/
theorem C1_serverDown_witness :
    0 < (⟨3⟩ : HMConfig).maxFailures ∧
    (serverDownCount ⟨3⟩ "s1" (List.replicate 4 false) = 4 + 1 - (⟨3⟩ : HMConfig).maxFailures ∧
      (∀ f : String → Nat,
        processHealthResult ⟨3⟩ f "s1" true = (Function.update f "s1" 0, false))) :=
  ⟨by decide, C1_serverDown_after_maxFailures ⟨3⟩ (by decide) "s1" 4⟩

/-- C1, counterexample to the claim as stated: with `maxFailures = 3`,
the third consecutive unhealthy probe emits the first `serverDown("s1")`
(count 1), but the fourth consecutive unhealthy probe emits a second
one (count 2), whereas the claim requires that a further consecutive
unhealthy probe emit no new `serverDown` event. -/
theorem C1_fourth_probe_emits_again :
    serverDownCount ⟨3⟩ "s1" (List.replicate 3 false) = 1 ∧
    serverDownCount ⟨3⟩ "s1" (List.replicate 4 false) = 2 ∧
    ¬ (serverDownCount ⟨3⟩ "s1" (List.replicate 4 false) ≤ 1) := by
  decide

/-! ### TokenStore invalidation: claim C9 -/

/-- Folding per-pattern deletions over a directory equals one filter
keeping the files matching no pattern. -/
theorem foldl_filter_ne (pats : List String) (files : List String) :
    pats.foldl (fun fs p => fs.filter (fun f => f != p)) files =
      files.filter (fun f => pats.all (fun p => f != p)) := by
  induction pats generalizing files with
  | nil => simp
  | cons p ps ih =>
    simp only [List.foldl_cons, ih, List.filter_filter]
    apply List.filter_congr
    intro f _
    simp [Bool.and_comm]

/-- C9, amended.  `clearAuthenticationCache(email)` removes the file
literally named `email`, the file named after the mangled email, and —
through its final sweep — **every** file in the token directory whose
name ends in `-cache.json`, including the per-identity sub-caches
(user / device / title / msal / xbl) of *all* identities; missing files
are tolerated (a file not present is simply not in the directory
listing).  It does not leave cache entries keyed to other identities
unchanged: any other identity's `*-cache.json` files are deleted too. -/
theorem C9_invalidate_filter (email : String) (files : List String) :
    clearAuthenticationCache email files =
      files.filter (fun f =>
        !(f == email) && !(f == mangleEmail email) &&
          !strEndsWith f "-cache.json") := by
  unfold clearAuthenticationCache
  rw [foldl_filter_ne, List.filter_filter]
  apply List.filter_congr
  intro f _
  by_cases hsuf : strEndsWith f "-cache.json" = true
  · simp [hsuf, cachePatterns, cacheGlobLits]
  · have hsuf' : strEndsWith f "-cache.json" = false := by
      revert hsuf; cases strEndsWith f "-cache.json" <;> simp
    have hglob : ∀ g : String, strEndsWith g "-cache.json" = true → (f != g) = true := by
      intro g hg
      rcases eq_or_ne f g with rfl | hne
      · rw [hg] at hsuf'; cases hsuf'
      · simp [hne]
    simp only [cachePatterns, cacheGlobLits, List.cons_append, List.nil_append,
      List.all_cons, List.all_nil,
      hglob "*-cache.json" (by decide), hglob "*-mca-cache.json" (by decide),
      hglob "*-msal-cache.json" (by decide), hglob "*-xbl-cache.json" (by decide),
      hglob "*-live-cache.json" (by decide), hsuf']
    simp [bne]

/-- C9, counterexample to the claim as stated: invalidating the cache
for `a@x.test` also deletes `b_y_test-xbl-cache.json`, a sub-cache
entry keyed to a different identity, which the claim requires to be
left unchanged. -/
theorem C9_other_identity_deleted :
    "b_y_test-xbl-cache.json" ∉
      clearAuthenticationCache "a@x.test" ["b_y_test-xbl-cache.json", "keep.txt"] ∧
    clearAuthenticationCache "a@x.test" ["b_y_test-xbl-cache.json", "keep.txt"] =
      ["keep.txt"] := by
  decide

/-! ### AuthPipeline output guarantees: claim C5 -/

/-- Dropping a literal prefix from itself plus a remainder. -/
theorem dropLit_append (l r : List Char) : dropLit l (l ++ r) = some r := by
  induction l with
  | nil => rfl
  | cons c cs ih => simp [dropLit, ih]

/-- The `[^;]+;.+$` tail matcher succeeds on
`hash ++ ';' :: tok` when `hash` is `;`-free and `tok` is a non-empty
run of `.`-matchable characters. -/
theorem semiTail_build (hash tok : List Char)
    (hh : hash.all (fun c => c ≠ ';') = true)
    (ht : tok ≠ []) (hd : tok.all dotChar = true) :
    semiTail (hash ++ ';' :: tok) = true := by
  induction hash with
  | nil =>
    simp only [List.nil_append, semiTail, if_pos rfl]
    simp [List.isEmpty_iff, ht, hd]
  | cons c cs ih =>
    simp only [List.all_cons, Bool.and_eq_true, decide_eq_true_eq] at hh
    simp only [List.cons_append, semiTail, if_neg hh.1]
    exact ih hh.2

/-- The authorization header built as
`"XBL3.0 x=" ++ hash ++ ";" ++ tok` matches the spec regex
`^XBL3\.0 x=[^;]+;.+$` whenever the hash is non-empty and `;`-free and
the token is a non-empty run of `.`-matchable characters. -/
theorem matchesAuthHeaderRegex_build (hash tok : String)
    (hne : hash.data ≠ []) (hh : hash.data.all (fun c => c ≠ ';') = true)
    (htne : tok.data ≠ []) (hd : tok.data.all dotChar = true) :
    matchesAuthHeaderRegex ("XBL3.0 x=" ++ hash ++ ";" ++ tok) = true := by
  unfold matchesAuthHeaderRegex
  have hdata : ("XBL3.0 x=" ++ hash ++ ";" ++ tok).data =
      "XBL3.0 x=".data ++ (hash.data ++ ';' :: tok.data) := by
    simp [String.data_append, List.append_assoc]
  rw [hdata, dropLit_append]
  obtain ⟨c, cs, hcs⟩ := List.exists_cons_of_ne_nil hne
  have hc : c ≠ ';' ∧ cs.all (fun ch => ch ≠ ';') = true := by
    rw [hcs] at hh
    simpa using hh
  rw [hcs]
  simp only [List.cons_append, if_neg hc.1]
  exact semiTail_build cs tok.data hc.2 htne hd

/-- C5, amended.  The pipeline builds every identity's authorization
header as the literal concatenation `XBL3.0 x=<userHash>;<XSTSToken>`
(which matches `^XBL3\.0 x=[^;]+;.+$` for the well-formed hashes and
tokens Xbox Live issues), and only the *recovery* path
(`getXboxTokenWithAdvancedRetry`) length-validates tokens before
accepting them — for a token passing that validation the identity has
XUID and user hash of length ≥ 10 and XSTS token of length ≥ 100.
`expiresAt` is taken from `NotAfter` when present (defaulting to
`now + 24h` otherwise) with **no** check that it lies in the future,
and `tryAuthenticationMethod` in `auth-manager.js` applies no length
validation at all. -/
theorem C5_identity_fields (email : String) (t : XboxToken) (now : Nat)
    (hok : tokenStructureOk t = true)
    (hsemi : t.userHash.data.all (fun c => c ≠ ';') = true)
    (hdot : t.XSTSToken.data.all dotChar = true) :
    10 ≤ (mkClientFromToken email t now).xuid.length ∧
    10 ≤ (mkClientFromToken email t now).userHash.length ∧
    100 ≤ (mkClientFromToken email t now).xstsToken.length ∧
    (mkClientFromToken email t now).authHeader =
      "XBL3.0 x=" ++ t.userHash ++ ";" ++ t.XSTSToken ∧
    matchesAuthHeaderRegex (mkClientFromToken email t now).authHeader = true ∧
    (mkClientFromToken email t now).expiresAt =
      (match t.NotAfter with
       | some ms => ms
       | none => now + 24 * 60 * 60 * 1000) := by
  have hlen : 10 ≤ t.userXUID.length ∧ 10 ≤ t.userHash.length ∧
      100 ≤ t.XSTSToken.length := by
    simp only [tokenStructureOk, Bool.and_eq_true, decide_eq_true_eq] at hok
    exact ⟨hok.2.1.1, hok.2.1.2, hok.2.2⟩
  have hhne : t.userHash.data ≠ [] := by
    have := hlen.2.1
    rw [String.length] at this
    intro h
    rw [h] at this
    simp at this
  have htne : t.XSTSToken.data ≠ [] := by
    have := hlen.2.2
    rw [String.length] at this
    intro h
    rw [h] at this
    simp at this
  refine ⟨hlen.1, hlen.2.1, hlen.2.2, rfl, ?_, rfl⟩
  exact matchesAuthHeaderRegex_build t.userHash t.XSTSToken hhne hsemi htne hdot

/-- Witness for `C5_identity_fields` at a concrete valid token. -/
theorem C5_identity_fields_witness :
    tokenStructureOk ⟨"1234567890", "abcdef1234",
        String.mk (List.replicate 100 'a'), some 999⟩ = true ∧
    (10 ≤ (mkClientFromToken "a@x.test"
        ⟨"1234567890", "abcdef1234", String.mk (List.replicate 100 'a'), some 999⟩
        0).xuid.length ∧
     matchesAuthHeaderRegex (mkClientFromToken "a@x.test"
        ⟨"1234567890", "abcdef1234", String.mk (List.replicate 100 'a'), some 999⟩
        0).authHeader = true) :=
  ⟨by decide,
   (C5_identity_fields "a@x.test"
      ⟨"1234567890", "abcdef1234", String.mk (List.replicate 100 'a'), some 999⟩
      0 (by decide) (by decide) (by decide)).1,
   (C5_identity_fields "a@x.test"
      ⟨"1234567890", "abcdef1234", String.mk (List.replicate 100 'a'), some 999⟩
      0 (by decide) (by decide) (by decide)).2.2.2.2.1⟩

/-- C5, counterexample to the claim as stated: `tryAuthenticationMethod`
(`auth-manager.js` lines 151-175) resolves an identity from whatever
token `authflow.getXboxToken()` returned, with no length validation and
no check of `NotAfter` against the clock; a token with a 5-character
XSTS string and `NotAfter` in the past yields an identity violating
both the `≥ 100 characters` guarantee and `NotAfter > now`. -/
theorem C5_unvalidated_identity :
    ¬ (100 ≤ (mkClientFromToken "user@example.com"
          ⟨"1234567890", "abcdef1234", "short", some 0⟩ 1000).xstsToken.length ∧
       1000 < (mkClientFromToken "user@example.com"
          ⟨"1234567890", "abcdef1234", "short", some 0⟩ 1000).expiresAt) := by
  decide

/-! ### Sequential authentication: claim C6 -/

/-- C6, amended.  In `initializeAccounts` every identity's
authentication is *started* — in configuration order — before any
identity's authentication completes: the trace is the starts (a prefix
in configuration order) followed by all completions. -/
theorem C6_concurrent_auth_starts (accounts completions : List String)
    (i j : Nat) (a b : String)
    (hi : (authInitTrace accounts completions).get? i = some (AuthEvent.start a))
    (hj : (authInitTrace accounts completions).get? j = some (AuthEvent.complete b)) :
    i < j ∧
    (authInitTrace accounts completions).take accounts.length =
      accounts.map AuthEvent.start := by
  have hlen : i < (accounts.map AuthEvent.start).length := by
    by_contra hge
    push_neg at hge
    rw [authInitTrace, List.get?_append_right hge] at hi
    rw [List.get?_map] at hi
    rcases hx : (completions.get? (i - (accounts.map AuthEvent.start).length)) with _ | x
    · rw [hx] at hi; cases hi
    · rw [hx] at hi; cases hi
  have hjlen : ¬ j < (accounts.map AuthEvent.start).length := by
    intro hlt
    rw [authInitTrace, List.get?_append hlt, List.get?_map] at hj
    rcases hx : (accounts.get? j) with _ | x
    · rw [hx] at hj; cases hj
    · rw [hx] at hj; cases hj
  constructor
  · omega
  · rw [authInitTrace]
    have := List.take_left (accounts.map AuthEvent.start) (completions.map AuthEvent.complete)
    rwa [List.length_map] at this

/-- Witness for `C6_concurrent_auth_starts` on the two-identity
configuration. -/
theorem C6_concurrent_auth_starts_witness :
    (authInitTrace ["a@x.test", "b@x.test"] ["a@x.test", "b@x.test"]).get? 0 =
      some (AuthEvent.start "a@x.test") ∧
    (authInitTrace ["a@x.test", "b@x.test"] ["a@x.test", "b@x.test"]).get? 2 =
      some (AuthEvent.complete "a@x.test") ∧
    (0 < 2 ∧
      (authInitTrace ["a@x.test", "b@x.test"] ["a@x.test", "b@x.test"]).take 2 =
        ["a@x.test", "b@x.test"].map AuthEvent.start) :=
  ⟨rfl, rfl, C6_concurrent_auth_starts ["a@x.test", "b@x.test"]
    ["a@x.test", "b@x.test"] 0 2 "a@x.test" "a@x.test" rfl rfl⟩

/-- C6, counterexample to the claim as stated: with two configured
identities, `initializeAccounts` maps `authenticateAccount` over the
account list and awaits `Promise.allSettled`, so the second identity's
authentication starts (trace index 1) before the first identity's
completes (trace index 2) — authentication is not sequential. -/
theorem C6_not_sequential :
    ¬ seqAuthOK (authInitTrace ["a@x.test", "b@x.test"] ["a@x.test", "b@x.test"])
      "a@x.test" "b@x.test" := by
  intro hseq
  have := hseq 2 1 rfl rfl
  omega

/-! ### Hardened XSTS parsing of the truncated fixture: claim C7 -/

/-- C7, amended.  On the spec's truncation fixture (body ending in `]`
with the two closing braces missing) the parser does **not** truncate
at the last brace — the truncation branch only runs when the body ends
in neither `\x7d` nor `]`.  `JSON.parse` fails, the regex fallback
extracts the Token — so the produced record's `Token` is the given
≥ 100-character token and the first attempt of `getXSTSTokenCustom`
succeeds with no retry counted — but the captured DisplayClaims
fragment is itself unparseable, so a minimal DisplayClaims is
synthesized and the record's user hash is `"temp_hash"`, not the `uhs`
value `"h"` from the body. -/
theorem C7_fixture_parse :
    fixtureParsed = Except.ok (Json.obj
      [("Token", Json.str xstsFixtureToken),
       ("DisplayClaims", Json.obj
         [("xui", Json.arr [Json.obj [("uhs", Json.str "temp_hash")]])]),
       ("IssueInstant", Json.str nowIsoW),
       ("NotAfter", Json.str notAfterIsoW)]) ∧
    100 ≤ xstsFixtureToken.length ∧
    xstsFirstAttemptOk nowIsoW notAfterIsoW xstsFixtureBody = true ∧
    fixtureUserHash = some "temp_hash" := by
  refine ⟨by rfl, by decide, by decide, by decide⟩

/-- C7, counterexample to the claim as stated: the user hash of the
record produced from the fixture is not `"h"`. -/
theorem C7_userhash_not_h : ¬ (fixtureUserHash = some "h") := by
  decide

/-! ### FriendGraph health check: claim C8 -/

/-- C8, confirmed.  `getHealthStatus` reports healthy exactly when at
least 50% of the `N·(N−1)` expected directed friendship edges are
recorded as established (for `N ≤ 1` there are no expected edges and
the check is trivially healthy). -/
theorem C8_health_iff_half_edges (accounts : List String)
    (friendships : List Friendship) :
    friendHealthOk accounts friendships = true ↔
      (50 / 100 : Rat) * ((accounts.length * (accounts.length - 1) : Nat) : Rat) ≤
        (establishedCount friendships : Rat) := by
  simp only [friendHealthOk]
  by_cases h : 0 < accounts.length * (accounts.length - 1)
  · have hp : (0 : Rat) < ((accounts.length * (accounts.length - 1) : Nat) : Rat) := by
      exact_mod_cast h
    rw [if_pos h, decide_eq_true_eq, not_lt, div_mul_eq_mul_div, le_div_iff hp]
    constructor <;> intro hle <;> nlinarith
  · have h0 : accounts.length * (accounts.length - 1) = 0 := by omega
    rw [if_neg h, decide_eq_true_eq, h0]
    simp only [Nat.cast_zero, mul_zero, not_lt]
    constructor
    · intro _; positivity
    · intro _; norm_num

/-! ### SessionController: claims C2, C3, C4, C10 -/

/-- `countRA` distributes over append. -/
theorem countRA_append (a b : List SMEvent) :
    countRA (a ++ b) = countRA a + countRA b := by
  simp [countRA, List.filter_append]

/-- Consing a `reconnectAttempt` event increments `countRA`. -/
theorem countRA_cons_ra (k m d : Nat) (l : List SMEvent) :
    countRA (SMEvent.reconnectAttempt k m d :: l) = countRA l + 1 := by
  simp [countRA, List.filter_cons, isRA]

/-- Joint invariant of the reconnect ladder, by induction on fuel.  For
each of the three mutually recursive functions, started not running:
the number of `reconnectAttempt` emissions is at most
`maxReconnectAttempts - reconnectAttempts`; a `createSession` that
throws leaves the state unchanged and emitted no `reconnectAttempt`;
and every emitted `reconnectAttempt (k, m, d)` has `m` the configured
maximum, `d = reconnectDelay * 2 ^ (k - 1)`, and
`reconnectAttempts < k ≤ maxReconnectAttempts` (for `attemptReconnect`
under its call-site guard `reconnectAttempts < maxReconnectAttempts`). -/
theorem ladder_spec (cfg : SessionConfig) (net : Nat → Bool) : ∀ fuel : Nat,
    (∀ st n, st.isRunning = false →
      (countRA (createSession cfg net fuel st n).events ≤
          cfg.maxReconnectAttempts - st.reconnectAttempts) ∧
      (isErr (createSession cfg net fuel st n).result = true →
        (createSession cfg net fuel st n).st = st ∧
        countRA (createSession cfg net fuel st n).events = 0) ∧
      (∀ k m d,
        SMEvent.reconnectAttempt k m d ∈ (createSession cfg net fuel st n).events →
        m = cfg.maxReconnectAttempts ∧ d = cfg.reconnectDelay * 2 ^ (k - 1) ∧
        st.reconnectAttempts < k ∧ k ≤ cfg.maxReconnectAttempts)) ∧
    (∀ st n, st.isRunning = false →
        st.reconnectAttempts < cfg.maxReconnectAttempts →
      (countRA (attemptReconnect cfg net fuel st n).events ≤
          cfg.maxReconnectAttempts - st.reconnectAttempts) ∧
      (∀ k m d,
        SMEvent.reconnectAttempt k m d ∈ (attemptReconnect cfg net fuel st n).events →
        m = cfg.maxReconnectAttempts ∧ d = cfg.reconnectDelay * 2 ^ (k - 1) ∧
        st.reconnectAttempts < k ∧ k ≤ cfg.maxReconnectAttempts)) ∧
    (∀ st n, st.isRunning = false →
      (countRA (reconnectResume cfg net fuel st n).events ≤
          cfg.maxReconnectAttempts - st.reconnectAttempts) ∧
      (∀ k m d,
        SMEvent.reconnectAttempt k m d ∈ (reconnectResume cfg net fuel st n).events →
        m = cfg.maxReconnectAttempts ∧ d = cfg.reconnectDelay * 2 ^ (k - 1) ∧
        st.reconnectAttempts < k ∧ k ≤ cfg.maxReconnectAttempts)) := by
  intro fuel
  induction fuel with
  | zero =>
    refine ⟨fun st n _ => ⟨?_, ?_, ?_⟩, fun st n _ _ => ⟨?_, ?_⟩, fun st n _ => ⟨?_, ?_⟩⟩
    all_goals simp [createSession, attemptReconnect, reconnectResume, countRA]
  | succ fuel ih =>
    obtain ⟨ihCS, ihAR, ihRR⟩ := ih
    refine ⟨?_, ?_, ?_⟩
    · -- createSession (fuel + 1)
      intro st n hrun
      simp only [createSession, hrun, Bool.false_eq_true, if_false]
      cases hnet : net n with
      | true =>
        simp only [if_true, List.nil_append]
        refine ⟨?_, ?_, ?_⟩
        · simp [countRA, isRA]
        · simp [isErr]
        · intro k m d hmem
          simp at hmem
      | false =>
        simp only [Bool.false_eq_true, if_false]
        by_cases hc : cfg.autoReconnect = true ∧
            st.reconnectAttempts < cfg.maxReconnectAttempts
        · rw [if_pos hc]
          obtain ⟨hARc, hARm⟩ := ihAR st (n + 1) hrun hc.2
          simp only [List.nil_append]
          exact ⟨hARc, by simp [isErr], hARm⟩
        · rw [if_neg hc]
          refine ⟨by simp [countRA, isRA], fun _ => ⟨rfl, by simp [countRA, isRA]⟩, ?_⟩
          intro k m d hmem
          simp at hmem
    · -- attemptReconnect (fuel + 1)
      intro st n hrun hlt
      simp only [attemptReconnect]
      obtain ⟨hRRc, hRRm⟩ := ihRR
        ⟨st.reconnectAttempts + 1, st.isRunning, st.heartbeatActive,
         st.hasSession, st.lastHeartbeat⟩ n hrun
      constructor
      · rw [countRA_cons_ra]
        simp only at hRRc
        omega
      · intro k m d hmem
        rcases List.mem_cons.mp hmem with heq | htail
        · injection heq with h1 h2 h3
          subst h1; subst h2; subst h3
          exact ⟨rfl, rfl, by omega, by omega⟩
        · obtain ⟨hm, hd, hgt, hle⟩ := hRRm k m d htail
          simp only at hgt
          exact ⟨hm, hd, by omega, hle⟩
    · -- reconnectResume (fuel + 1)
      intro st n hrun
      simp only [reconnectResume]
      obtain ⟨ihCSc, ihCSe, ihCSm⟩ := ihCS st n hrun
      rcases hres : (createSession cfg net fuel st n).result with e | b
      · -- createSession threw
        simp only [hres]
        obtain ⟨hstEq, hcnt0⟩ := ihCSe (by rw [hres]; rfl)
        by_cases hlt2 : (createSession cfg net fuel st n).st.reconnectAttempts <
            cfg.maxReconnectAttempts
        · rw [if_pos hlt2]
          rw [hstEq] at hlt2
          obtain ⟨hARc, hARm⟩ :=
            ihAR st (createSession cfg net fuel st n).n hrun hlt2
          constructor
          · rw [countRA_append, hcnt0, hstEq]
            omega
          · intro k m d hmem
            rw [hstEq] at hmem
            rcases List.mem_append.mp hmem with h1 | h2
            · exact ihCSm k m d h1
            · exact hARm k m d h2
        · rw [if_neg hlt2]
          constructor
          · rw [countRA_append, hcnt0]
            simp [countRA, isRA]
          · intro k m d hmem
            rcases List.mem_append.mp hmem with h1 | h2
            · exact ihCSm k m d h1
            · simp at h2
      · -- createSession resolved
        simp only [hres]
        constructor
        · rw [countRA_append]
          have : countRA [SMEvent.sessionRecovered] = 0 := by simp [countRA, isRA]
          omega
        · intro k m d hmem
          rcases List.mem_append.mp hmem with h1 | h2
          · exact ihCSm k m d h1
          · simp at h2

/-- The network-call counter never decreases through the reconnect
machinery. -/
theorem n_mono (cfg : SessionConfig) (net : Nat → Bool) : ∀ fuel : Nat,
    (∀ st n, n ≤ (createSession cfg net fuel st n).n) ∧
    (∀ st n, n ≤ (attemptReconnect cfg net fuel st n).n) ∧
    (∀ st n, n ≤ (reconnectResume cfg net fuel st n).n) := by
  intro fuel
  induction fuel with
  | zero =>
    exact ⟨fun st n => le_refl n, fun st n => le_refl n, fun st n => le_refl n⟩
  | succ fuel ih =>
    obtain ⟨ihCS, ihAR, ihRR⟩ := ih
    refine ⟨?_, ?_, ?_⟩
    · intro st n
      simp only [createSession]
      cases hnet : net n with
      | true => simp
      | false =>
        simp only [Bool.false_eq_true, if_false]
        by_cases hc : cfg.autoReconnect = true ∧
            (if st.isRunning = true then (stopFn st).1 else st).reconnectAttempts <
              cfg.maxReconnectAttempts
        · rw [if_pos hc]
          exact le_trans (Nat.le_succ n) (ihAR _ (n + 1))
        · rw [if_neg hc]
          exact Nat.le_succ n
    · intro st n
      simp only [attemptReconnect]
      exact ihRR _ n
    · intro st n
      simp only [reconnectResume]
      rcases hres : (createSession cfg net fuel st n).result with e | b
      · simp only [hres]
        by_cases hlt2 : (createSession cfg net fuel st n).st.reconnectAttempts <
            cfg.maxReconnectAttempts
        · rw [if_pos hlt2]
          exact le_trans (ihCS st n) (ihAR _ _)
        · rw [if_neg hlt2]
          exact ihCS st n
      · simp only [hres]
        exact ihCS st n

/-- A `createSession` with positive fuel always issues its PUT: the
call counter strictly increases. -/
theorem createSession_n_lower (cfg : SessionConfig) (net : Nat → Bool)
    (fuel : Nat) (st : SMState) (n : Nat) :
    n + 1 ≤ (createSession cfg net (fuel + 1) st n).n := by
  simp only [createSession]
  cases hnet : net n with
  | true => simp
  | false =>
    simp only [Bool.false_eq_true, if_false]
    by_cases hc : cfg.autoReconnect = true ∧
        (if st.isRunning = true then (stopFn st).1 else st).reconnectAttempts <
          cfg.maxReconnectAttempts
    · rw [if_pos hc]
      exact (n_mono cfg net fuel).2.1 _ (n + 1)
    · rw [if_neg hc]

/-- The post-sleep continuation of a pending reconnect retry always
issues at least one further `createSession` PUT (given fuel to reach
it). -/
theorem reconnectResume_n_lower (cfg : SessionConfig) (net : Nat → Bool)
    (fuel : Nat) (st : SMState) (n : Nat) :
    n + 1 ≤ (reconnectResume cfg net (fuel + 2) st n).n := by
  simp only [reconnectResume]
  rcases hres : (createSession cfg net (fuel + 1) st n).result with e | b
  · simp only [hres]
    by_cases hlt2 : (createSession cfg net (fuel + 1) st n).st.reconnectAttempts <
        cfg.maxReconnectAttempts
    · rw [if_pos hlt2]
      exact le_trans (createSession_n_lower cfg net fuel st n)
        ((n_mono cfg net (fuel + 1)).2.1 _ _)
    · rw [if_neg hlt2]
      exact createSession_n_lower cfg net fuel st n
  · simp only [hres]
    exact createSession_n_lower cfg net fuel st n

/-- C2, confirmed.  After a single triggering failure (a reconnect
ladder started from a fresh, not-running state with
`reconnectAttempts = 0`), the total number of reconnect attempts never
exceeds `maxReconnectAttempts`; every attempt `k` sleeps exactly
`reconnectDelay * 2 ^ (k - 1)` before retrying, so the delay between
consecutive attempts `k` and `k + 1` (the sleep of attempt `k + 1`) is
at least `reconnectDelay * 2 ^ (k - 1)`. -/
theorem C2_reconnect_bounded (cfg : SessionConfig) (net : Nat → Bool)
    (fuel : Nat) (st : SMState) (n : Nat)
    (h0 : st.reconnectAttempts = 0) (hrun : st.isRunning = false) :
    countRA (createSession cfg net fuel st n).events ≤ cfg.maxReconnectAttempts ∧
    (∀ k m d,
      SMEvent.reconnectAttempt k m d ∈ (createSession cfg net fuel st n).events →
      d = cfg.reconnectDelay * 2 ^ (k - 1) ∧ 1 ≤ k ∧ k ≤ cfg.maxReconnectAttempts) ∧
    (∀ k m d,
      SMEvent.reconnectAttempt (k + 1) m d ∈ (createSession cfg net fuel st n).events →
      cfg.reconnectDelay * 2 ^ (k - 1) ≤ d) := by
  obtain ⟨hCS, -, -⟩ := ladder_spec cfg net fuel
  obtain ⟨hc, -, hm⟩ := hCS st n hrun
  rw [h0, Nat.sub_zero] at hc
  refine ⟨hc, ?_, ?_⟩
  · intro k m d hmem
    obtain ⟨-, h2, h3, h4⟩ := hm k m d hmem
    rw [h0] at h3
    exact ⟨h2, h3, h4⟩
  · intro k m d hmem
    obtain ⟨-, h2, -, -⟩ := hm (k + 1) m d hmem
    rw [h2]
    exact Nat.mul_le_mul_left _
      (Nat.pow_le_pow_right (by norm_num) (by omega))

/-- Witness for `C2_reconnect_bounded`: `maxReconnectAttempts = 3`,
`reconnectDelay = 5000`, every PUT failing, fuel 10. -/
theorem C2_reconnect_bounded_witness :
    (⟨0, false, false, false, none⟩ : SMState).reconnectAttempts = 0 ∧
    (⟨0, false, false, false, none⟩ : SMState).isRunning = false ∧
    (countRA (createSession ⟨true, 3, 5000, 60000⟩ (fun _ => false) 10
        ⟨0, false, false, false, none⟩ 0).events ≤ 3 ∧
     (∀ k m d, SMEvent.reconnectAttempt k m d ∈
        (createSession ⟨true, 3, 5000, 60000⟩ (fun _ => false) 10
          ⟨0, false, false, false, none⟩ 0).events →
        d = 5000 * 2 ^ (k - 1) ∧ 1 ≤ k ∧ k ≤ 3) ∧
     (∀ k m d, SMEvent.reconnectAttempt (k + 1) m d ∈
        (createSession ⟨true, 3, 5000, 60000⟩ (fun _ => false) 10
          ⟨0, false, false, false, none⟩ 0).events →
        5000 * 2 ^ (k - 1) ≤ d)) :=
  ⟨rfl, rfl, C2_reconnect_bounded ⟨true, 3, 5000, 60000⟩ (fun _ => false) 10
    ⟨0, false, false, false, none⟩ 0 rfl rfl⟩

/-- C3, amended.  A failure in `createSession` triggers
`attemptReconnect` (at least one `reconnectAttempt` is emitted) exactly
when `autoReconnect` is enabled and `reconnectAttempts` is below
`maxReconnectAttempts`; otherwise the failure emits an `error` event
and the call rejects with no reconnect attempt.  A failure in the
heartbeat never triggers `attemptReconnect`: the interval handler
emits only an `error` event and leaves the state (including the
attempt counter) unchanged. -/
theorem C3_failure_handling (cfg : SessionConfig) (net : Nat → Bool)
    (fuel : Nat) (st st2 : SMState) (n now : Nat)
    (hrun : st.isRunning = false) (hfail : net n = false) :
    (cfg.autoReconnect = true → st.reconnectAttempts < cfg.maxReconnectAttempts →
      0 < countRA (createSession cfg net (fuel + 2) st n).events) ∧
    (¬ (cfg.autoReconnect = true ∧ st.reconnectAttempts < cfg.maxReconnectAttempts) →
      countRA (createSession cfg net (fuel + 2) st n).events = 0 ∧
      isErr (createSession cfg net (fuel + 2) st n).result = true ∧
      SMEvent.errorEvent "Session creation failed" ∈
        (createSession cfg net (fuel + 2) st n).events) ∧
    countRA (heartbeatTick st2 now false).2 = 0 ∧
    (heartbeatTick st2 now false).1 = st2 := by
  refine ⟨?_, ?_, ?_, ?_⟩
  · intro ha hlt
    simp only [createSession, hrun, Bool.false_eq_true, if_false, hfail]
    rw [if_pos ⟨ha, hlt⟩]
    simp only [attemptReconnect, List.nil_append]
    rw [countRA_cons_ra]
    omega
  · intro hnc
    simp only [createSession, hrun, Bool.false_eq_true, if_false, hfail]
    rw [if_neg hnc]
    refine ⟨by simp [countRA, isRA], rfl, by simp⟩
  · simp only [heartbeatTick, Bool.false_eq_true, if_false]
    split_ifs <;> simp [countRA, isRA]
  · simp only [heartbeatTick, Bool.false_eq_true, if_false]
    split_ifs <;> rfl

/-- Witness for `C3_failure_handling` on a concrete failing first PUT
and a concrete running state for the heartbeat part. -/
theorem C3_failure_handling_witness :
    (⟨0, false, false, false, none⟩ : SMState).isRunning = false ∧
    (fun _ : Nat => false) 0 = false ∧
    (((⟨true, 3, 5000, 60000⟩ : SessionConfig).autoReconnect = true →
        (⟨0, false, false, false, none⟩ : SMState).reconnectAttempts <
          (⟨true, 3, 5000, 60000⟩ : SessionConfig).maxReconnectAttempts →
        0 < countRA (createSession ⟨true, 3, 5000, 60000⟩ (fun _ => false) 2
          ⟨0, false, false, false, none⟩ 0).events) ∧
     (¬ ((⟨true, 3, 5000, 60000⟩ : SessionConfig).autoReconnect = true ∧
          (⟨0, false, false, false, none⟩ : SMState).reconnectAttempts <
            (⟨true, 3, 5000, 60000⟩ : SessionConfig).maxReconnectAttempts) →
        countRA (createSession ⟨true, 3, 5000, 60000⟩ (fun _ => false) 2
          ⟨0, false, false, false, none⟩ 0).events = 0 ∧
        isErr (createSession ⟨true, 3, 5000, 60000⟩ (fun _ => false) 2
          ⟨0, false, false, false, none⟩ 0).result = true ∧
        SMEvent.errorEvent "Session creation failed" ∈
          (createSession ⟨true, 3, 5000, 60000⟩ (fun _ => false) 2
            ⟨0, false, false, false, none⟩ 0).events) ∧
     countRA (heartbeatTick ⟨0, true, true, true, some 0⟩ 60000 false).2 = 0 ∧
     (heartbeatTick ⟨0, true, true, true, some 0⟩ 60000 false).1 =
       ⟨0, true, true, true, some 0⟩) :=
  ⟨rfl, rfl, C3_failure_handling ⟨true, 3, 5000, 60000⟩ (fun _ => false) 0
    ⟨0, false, false, false, none⟩ ⟨0, true, true, true, some 0⟩ 0 60000 rfl rfl⟩

/-- C3, counterexample to the claim as stated: a heartbeat failure on a
running session with an active session record emits only the `error`
event — no `reconnectAttempt` event is emitted, the attempt counter is
not incremented, no backoff sleep happens and `createSession` is not
called again. -/
theorem C3_heartbeat_no_reconnect :
    (heartbeatTick ⟨0, true, true, true, some 0⟩ 60000 false).2 =
      [SMEvent.errorEvent "Heartbeat error"] ∧
    countRA (heartbeatTick ⟨0, true, true, true, some 0⟩ 60000 false).2 = 0 ∧
    (heartbeatTick ⟨0, true, true, true, some 0⟩ 60000 false).1.reconnectAttempts = 0 := by
  decide

/-- C4, amended.  `stop()` sets `running = false` and clears the
heartbeat interval — afterwards `isRunning` and `heartbeatActive` are
false and a (hypothetical) heartbeat tick is a no-op, so no heartbeat
timer ever fires again.  But a pending reconnect retry is **not**
cancelled: the sleep inside `attemptReconnect` is a plain `setTimeout`
promise, and when it elapses the continuation calls `createSession()`
again and issues at least one further session Create PUT (the call
counter strictly increases). -/
theorem C4_stop_behavior (st : SMState) (now fuel n : Nat)
    (cfg : SessionConfig) (net : Nat → Bool) (ok : Bool) :
    (stopFn st).1.isRunning = false ∧
    (stopFn st).1.heartbeatActive = false ∧
    heartbeatTick (stopFn st).1 now ok = ((stopFn st).1, []) ∧
    n + 1 ≤ (reconnectResume cfg net (fuel + 2) (stopFn st).1 n).n := by
  exact ⟨rfl, rfl, rfl, reconnectResume_n_lower cfg net fuel _ n⟩

/-- C4, counterexample to the claim as stated: a retry that was
sleeping when `stop()` ran (the state records one reconnect attempt)
resumes after the stop, issues a further Create PUT (call counter goes
from 0 to 1) and — the PUT succeeding — even resurrects the session
(`isRunning` becomes true again after the stop). -/
theorem C4_pending_retry_not_cancelled :
    (stopFn ⟨1, false, false, false, none⟩).1.isRunning = false ∧
    (reconnectResume ⟨true, 3, 5000, 60000⟩ (fun _ => true) 5
        (stopFn ⟨1, false, false, false, none⟩).1 0).n = 1 ∧
    (reconnectResume ⟨true, 3, 5000, 60000⟩ (fun _ => true) 5
        (stopFn ⟨1, false, false, false, none⟩).1 0).st.isRunning = true := by
  decide

/-- C10, confirmed.  When the PUT of `createSession` fails while
`autoReconnect` is enabled and `reconnectAttempts` is below
`maxReconnectAttempts`, the call resolves normally with `undefined`
(`Except.ok false`: no session record, no exception for the caller);
when auto-reconnect is disabled or the attempts are exhausted it emits
an `error` event and throws. -/
theorem C10_create_failure_contract (cfg : SessionConfig) (net : Nat → Bool)
    (fuel : Nat) (st : SMState) (n : Nat)
    (hrun : st.isRunning = false) (hfail : net n = false) :
    (cfg.autoReconnect = true → st.reconnectAttempts < cfg.maxReconnectAttempts →
      (createSession cfg net (fuel + 1) st n).result = Except.ok false) ∧
    (¬ (cfg.autoReconnect = true ∧ st.reconnectAttempts < cfg.maxReconnectAttempts) →
      (createSession cfg net (fuel + 1) st n).result =
        Except.error "Session creation failed" ∧
      SMEvent.errorEvent "Session creation failed" ∈
        (createSession cfg net (fuel + 1) st n).events) := by
  constructor
  · intro ha hlt
    simp only [createSession, hrun, Bool.false_eq_true, if_false, hfail]
    rw [if_pos ⟨ha, hlt⟩]
  · intro hnc
    simp only [createSession, hrun, Bool.false_eq_true, if_false, hfail]
    rw [if_neg hnc]
    exact ⟨rfl, by simp⟩

/-- Witness for `C10_create_failure_contract`: with auto-reconnect on,
three allowed attempts and a failing PUT, `createSession` resolves with
`undefined`. -/
theorem C10_create_failure_contract_witness :
    (⟨0, false, false, false, none⟩ : SMState).isRunning = false ∧
    (fun _ : Nat => false) 0 = false ∧
    (((⟨true, 3, 5000, 60000⟩ : SessionConfig).autoReconnect = true →
        (⟨0, false, false, false, none⟩ : SMState).reconnectAttempts <
          (⟨true, 3, 5000, 60000⟩ : SessionConfig).maxReconnectAttempts →
        (createSession ⟨true, 3, 5000, 60000⟩ (fun _ => false) 10
          ⟨0, false, false, false, none⟩ 0).result = Except.ok false) ∧
     (¬ ((⟨true, 3, 5000, 60000⟩ : SessionConfig).autoReconnect = true ∧
          (⟨0, false, false, false, none⟩ : SMState).reconnectAttempts <
            (⟨true, 3, 5000, 60000⟩ : SessionConfig).maxReconnectAttempts) →
        (createSession ⟨true, 3, 5000, 60000⟩ (fun _ => false) 10
          ⟨0, false, false, false, none⟩ 0).result =
          Except.error "Session creation failed" ∧
        SMEvent.errorEvent "Session creation failed" ∈
          (createSession ⟨true, 3, 5000, 60000⟩ (fun _ => false) 10
            ⟨0, false, false, false, none⟩ 0).events)) :=
  ⟨rfl, rfl, C10_create_failure_contract ⟨true, 3, 5000, 60000⟩ (fun _ => false) 9
    ⟨0, false, false, false, none⟩ 0 rfl rfl⟩
